import Mathlib

/-!
Verification of the EX Certificate Application (certificate classifier,
Oman certificate parser, Proserv table extractor).

The Python sources are embedded shallowly:

* strings are Lean `String`s; Python's `in` (substring), `.upper()`,
  `.lower()`, `.strip()` and `re` digit tests are modelled on `List Char`;
* PDF geometry: the sources read float coordinates from PyMuPDF.  We model
  coordinates as integers (`ℤ`).  The only non-integer quantity the code
  ever computes is a span's `y_position = (y0 + y1) / 2` and the midpoint
  `(y_i + y_j) / 2` of two such values; we therefore store `ymid4`,
  4 times the `y_position`, which is exact on integer boxes, and state all
  comparisons of the source at that scale (`x <= 5` becomes `4*x <= 20`);
* Python dicts of strings are association lists in insertion order
  (updates keep the position of an existing key, new keys are appended);
* code that can raise returns `Except Unit` / `Option`.
-/

namespace Cert

/-! ## Python string primitives -/

/-- `needle.isPrefixOf hay` on char lists (Python `hay.startswith(needle)`). -/
def listStartsWith (needle hay : List Char) : Bool :=
  match needle, hay with
  | [], _ => true
  | _ :: _, [] => false
  | a :: as, b :: bs => a == b && listStartsWith as bs

/-- Python's substring containment `needle in hay`, on char lists. -/
def containsSub (hay needle : List Char) : Bool :=
  match hay with
  | [] => listStartsWith needle []
  | _ :: t => listStartsWith needle hay || containsSub t needle

/-- Python `s.upper()` (ASCII; all marker strings in the sources are ASCII). -/
def pyUpper (s : String) : List Char := s.data.map Char.toUpper

/-- Python `s.lower()` (ASCII). -/
def pyLower (s : String) : List Char := s.data.map Char.toLower

/-- Python whitespace for `str.strip()`. -/
def isPyWs (c : Char) : Bool :=
  c == ' ' || c == '\t' || c == '\n' || c == '\x0d' || c == '\x0b' || c == '\x0c'

/-- Python `s.strip()`. -/
def pyStrip (s : String) : String :=
  String.mk (((s.data.dropWhile isPyWs).reverse.dropWhile isPyWs).reverse)

/-- Python `re.match(r'^\d+$', s)` as a Boolean: one or more ASCII digits. -/
def isDigits (s : String) : Bool :=
  !s.data.isEmpty && s.data.all Char.isDigit

/-! ## Certificate classifier (`src/certificate_processor.py`)

`_classify_certificate` opens the PDF, reads the first page's text,
uppercases it and tests the two marker pairs; any open error or an empty
document yields `None`.  `process_certificates` iterates the sorted PDF
list, calling the progress callback at the top of each iteration and
stopping the whole loop when it returns false; classified files are copied
and the four statistics counters are maintained. -/

def KEY_PROSERV_A : String := "ELECTRICAL EQUIPMENT"

def KEY_PROSERV_B : String := "HAZARDOUS AREAS"

def KEY_OMAN_A : String := "VISUAL & CLOSE INSPECTION"

def KEY_OMAN_B : String := "REPORT FOR"

/-- Result of `_classify_certificate` when it is not `None`. -/
inductive CClass where
  | proserv : CClass
  | oman : CClass
deriving DecidableEq, Repr

/-- What `fitz.open` + page access yields for one input PDF: either the
open raises, or a (possibly empty) list of page texts. -/
inductive PdfContent where
  | fail : PdfContent
  | pages : List String → PdfContent
deriving DecidableEq, Repr

/-- One input PDF of the classification stage.  `copyOk` models whether
`shutil.copy2` would succeed for this file (its failure is the only
statement inside the per-file `try` that can raise once classification
returned). -/
structure CDoc where
  filename : String
  content : PdfContent
  copyOk : Bool
deriving DecidableEq, Repr

/-- The marker tests of `_classify_certificate` on a page-1 text
(lines 162-170): Proserv pair first, then Oman pair, else `None`. -/
def classifyText (t : String) : Option CClass :=
  let u := pyUpper t
  if containsSub u KEY_PROSERV_A.data && containsSub u KEY_PROSERV_B.data then
    some CClass.proserv
  else if containsSub u KEY_OMAN_A.data && containsSub u KEY_OMAN_B.data then
    some CClass.oman
  else
    none

/-- `_classify_certificate` (lines 152-170): open failure and zero pages
are caught and give `None`; otherwise the first page's text is tested. -/
def classifyCertificate (c : PdfContent) : Option CClass :=
  match c with
  | PdfContent.fail => none
  | PdfContent.pages [] => none
  | PdfContent.pages (p :: _) => classifyText p

/-- The statistics and accumulated effects of `process_certificates`:
the four counters of `self.stats`, the files copied into each target
directory, and `unknown_files`. -/
structure CState where
  proserv : Nat
  oman : Nat
  unclassified : Nat
  errors : Nat
  proservCopies : List String
  omanCopies : List String
  unknownFiles : List String
deriving DecidableEq, Repr

/-- `self.stats = {key: 0 for key in self.stats}` and empty effect lists. -/
def initState : CState :=
  { proserv := 0, oman := 0, unclassified := 0, errors := 0
    proservCopies := [], omanCopies := [], unknownFiles := [] }

/-- The body of the per-file loop of `process_certificates`
(lines 88-111): classify, copy on success (a copy failure is caught and
counted in `errors`), otherwise record the file as unclassified. -/
def stepDoc (st : CState) (d : CDoc) : CState :=
  match classifyCertificate d.content with
  | some CClass.proserv =>
      if d.copyOk then
        { st with proserv := st.proserv + 1,
                  proservCopies := st.proservCopies ++ [d.filename] }
      else
        { st with errors := st.errors + 1 }
  | some CClass.oman =>
      if d.copyOk then
        { st with oman := st.oman + 1,
                  omanCopies := st.omanCopies ++ [d.filename] }
      else
        { st with errors := st.errors + 1 }
  | none =>
      { st with unclassified := st.unclassified + 1,
                unknownFiles := st.unknownFiles ++ [d.filename] }

/-- The classification loop of `process_certificates` (lines 81-115):
at the top of iteration `i` the progress callback is invoked with `i + 1`;
a false return stops everything, otherwise the document is processed.
`cb` is the caller's callback restricted to its Boolean result. -/
def runLoop (cb : Nat → Bool) : Nat → CState → List CDoc → CState
  | _, st, [] => st
  | i, st, d :: ds =>
      if cb (i + 1) then runLoop cb (i + 1) (stepDoc st d) ds else st

/-- A full classification run that is never cancelled. -/
def processCerts (docs : List CDoc) : CState :=
  runLoop (fun _ => true) 0 initState docs

/-! ## Oman processor (`src/oman_processor.py`)

Coordinates are integers; `ymid4` is 4 times the source's
`y_position = (y0 + y1) / 2`, so the source's comparisons against
`Y_TOLERANCE = 5` appear below multiplied by 4. -/

/-- `self.Y_TOLERANCE = 5`. -/
def yTolerance : ℤ := 5

/-- `self.FIELDS`: 26 data fields plus `"Filename"`. -/
def FIELDS : List String :=
  ["PROJECT DESCRIPTION", "CLIENT TAG", "CIRCUIT ID", "DESCRIPTION", "SYSTEM",
   "MANUFACTURER", "TYPE/MODEL", "SERIAL NUMBER", "Ex PROTECTION", "EPL",
   "CERTIFIED BODY", "Ex CERT No", "DATE INSPECTED", "PROJECT WBS NO",
   "EX INSPECTION TAG No", "AREA CLASSIFICATION", "AREA CLASS", "LAYOUT DWG",
   "LOCATION", "AREA", "GRID REFERENCE", "ACCESS ARRANGEMENT", "IP RATING",
   "REPAIR CATEGORY", "NEXT INSPECTION DUE", "PASS / FAIL",
   "Filename"]

/-- Keep `A`-`Z` and `0`-`9`, as in `re.sub(r'[^A-Z0-9]', "", ...)`. -/
def isKeyChar (c : Char) : Bool :=
  ('A' ≤ c && c ≤ 'Z') || ('0' ≤ c && c ≤ '9')

/-- `_normalize_key`: uppercase, then drop non-alphanumerics. -/
def normalizeKey (s : String) : String :=
  String.mk ((s.data.map Char.toUpper).filter isKeyChar)

/-- `self.normalized_map`: normalised field name ↦ field name, for every
field except `"Filename"`. -/
def normalizedMap : List (String × String) :=
  (FIELDS.filter (fun f => !(f == "Filename"))).map (fun f => (normalizeKey f, f))

/-- `key in self.normalized_map`. -/
def inFieldMap (k : String) : Bool :=
  normalizedMap.any (fun p => p.1 == k)

/-- `self.normalized_map[key]` (total: the callers only use keys that are
present, in which case this is the mapped field name). -/
def fieldName (k : String) : String :=
  ((normalizedMap.find? (fun p => p.1 == k)).map Prod.snd).getD ""

/-- A span's bounding box `(x0, y0, x1, y1)`, integer coordinates. -/
structure Bbox where
  x0 : ℤ
  y0 : ℤ
  x1 : ℤ
  y1 : ℤ
deriving DecidableEq, Repr

/-- One text span of the first page, as built in `_extract_spans`.
`ymid4` stores `4 * y_position`. -/
structure Span where
  text : String
  normalized_key : String
  bbox : Bbox
  ymid4 : ℤ
deriving DecidableEq, Repr

/-- The span record built for one PyMuPDF span in `_extract_spans`
(lines 167-173): `normalized_key` from the text, `y_position`
(here `ymid4 = 4 * (y0 + y1) / 2 = 2 * (y0 + y1)`). -/
def mkSpan (text : String) (x0 y0 x1 y1 : ℤ) : Span :=
  { text := text
    normalized_key := normalizeKey text
    bbox := { x0 := x0, y0 := y0, x1 := x1, y1 := y1 }
    ymid4 := 2 * (y0 + y1) }

/-! Python dicts with string keys and values, in insertion order. -/

/-- `d[k] = v`: update in place if `k` is present, else append. -/
def dictSet (d : List (String × String)) (k v : String) : List (String × String) :=
  match d with
  | [] => [(k, v)]
  | (k0, v0) :: rest => if k0 = k then (k0, v) :: rest else (k0, v0) :: dictSet rest k v

/-- `d.get(k)` / `d[k]`. -/
def dictGet (d : List (String × String)) (k : String) : Option String :=
  match d with
  | [] => none
  | (k0, v0) :: rest => if k0 = k then some v0 else dictGet rest k

/-- `d.setdefault(k, v)`: keep an existing entry, else append `(k, v)`. -/
def dictSetdefault (d : List (String × String)) (k v : String) :
    List (String × String) :=
  match d with
  | [] => [(k, v)]
  | (k0, v0) :: rest =>
      if k0 = k then (k0, v0) :: rest else (k0, v0) :: dictSetdefault rest k v

/-! ### `_extend_spans_with_merged` (lines 177-212) -/

/-- `int(span["y_position"] // self.Y_TOLERANCE)`: floor division; at the
`ymid4` scale the divisor is `4 * yTolerance`. -/
def rowKey (s : Span) : ℤ :=
  Int.fdiv s.ymid4 (4 * yTolerance)

/-- `rows.setdefault(row_key, []).append(span)`: group rows in first-seen
key order, appending each span at the end of its group. -/
def addToRow (rows : List (ℤ × List Span)) (k : ℤ) (s : Span) :
    List (ℤ × List Span) :=
  match rows with
  | [] => [(k, [s])]
  | (k0, g) :: rest =>
      if k0 = k then (k0, g ++ [s]) :: rest else (k0, g) :: addToRow rest k s

/-- The `rows` dict after the grouping loop (lines 180-183). -/
def rowsOf (spans : List Span) : List (ℤ × List Span) :=
  spans.foldl (fun rs s => addToRow rs (rowKey s) s) []

/-- Stable insertion keeping earlier elements with an equal or smaller
`x0` in front, as Python's stable `list.sort(key=bbox[0])` does. -/
def insertByX0 (acc : List Span) (s : Span) : List Span :=
  match acc with
  | [] => [s]
  | t :: ts => if s.bbox.x0 < t.bbox.x0 then s :: t :: ts else t :: insertByX0 ts s

/-- `row_spans.sort(key=lambda s: s["bbox"][0])` (stable). -/
def sortByX0 (row : List Span) : List Span :=
  row.foldl insertByX0 []

/-- The inner `j` loop (lines 192-210), already holding the accumulated
text `acc` of spans `i..j-1`: extend with the next span, emit the merged
span on the first dictionary hit — its box takes `x0, y0` from span `i`
and `x1, y1` from span `j`, its `y_position` is the mean of the two —
else keep extending. -/
def mergeScan (s : Span) (acc : String) : List Span → Option Span
  | [] => none
  | t :: ts =>
      let acc2 := acc ++ t.text
      if inFieldMap (normalizeKey acc2) then
        some { text := acc2
               normalized_key := normalizeKey acc2
               bbox := { x0 := s.bbox.x0, y0 := s.bbox.y0
                         x1 := t.bbox.x1, y1 := t.bbox.y1 }
               ymid4 := Int.fdiv (s.ymid4 + t.ymid4) 2 }
      else
        mergeScan s acc2 ts

/-- The attempt at start index `i`: `range(i + 1, min(i + 5, len))`
offers at most the 4 spans that follow span `i`. -/
def mergeAt (row : List Span) (i : Nat) : Option Span :=
  match row.drop i with
  | [] => none
  | s :: rest => mergeScan s s.text (rest.take 4)

/-- All merged spans of one (already sorted) row, in start-index order. -/
def rowMergedSpans (row : List Span) : List Span :=
  (List.range row.length).filterMap (mergeAt row)

/-- `merged_spans` accumulated over `rows.values()` (lines 185-210). -/
def mergedOf (spans : List Span) : List Span :=
  (rowsOf spans).foldl (fun acc r => acc ++ rowMergedSpans (sortByX0 r.2)) []

/-- `_extend_spans_with_merged` returns `spans + merged_spans`. -/
def extendSpansWithMerged (spans : List Span) : List Span :=
  spans ++ mergedOf spans

/-! ### `_parse_certificate` (lines 102-148) -/

/-- `keys`: extended spans whose normalised key is a known field label. -/
def keysOf (spans : List Span) : List Span :=
  (extendSpansWithMerged spans).filter (fun s => inFieldMap s.normalized_key)

/-- `values`: the remaining extended spans. -/
def valsOf (spans : List Span) : List Span :=
  (extendSpansWithMerged spans).filter (fun s => !(inFieldMap s.normalized_key))

/-- The candidate list for one label (lines 127-132): value spans on the
same line (`|Δy_position| <= 5`, at the `ymid4` scale `<= 20`) strictly to
the right of the label, paired with their horizontal gap. -/
def candidatesOf (k : Span) (vals : List Span) : List (ℤ × Span) :=
  vals.filterMap (fun v =>
    if |v.ymid4 - k.ymid4| ≤ 4 * yTolerance && k.bbox.x1 < v.bbox.x0 then
      some (v.bbox.x0 - k.bbox.x1, v)
    else
      none)

/-- Python's `min` scan over `(distance, span)` tuples, with the running
best: a strictly smaller distance replaces it; an equal distance compares
the span dicts — equal dicts keep the best, distinct dicts raise
`TypeError` (dicts are unordered), modelled as `Except.error`. -/
def pyMinGo (best : ℤ × Span) : List (ℤ × Span) → Except Unit (ℤ × Span)
  | [] => Except.ok best
  | c :: cs =>
      if c.1 < best.1 then pyMinGo c cs
      else if c.1 = best.1 then
        if c.2 = best.2 then pyMinGo best cs else Except.error ()
      else pyMinGo best cs

/-- `min(candidates)` (line 136). -/
def pyMinPairs (l : List (ℤ × Span)) : Except Unit (ℤ × Span) :=
  match l with
  | [] => Except.error ()
  | x :: xs => pyMinGo x xs

/-- The value string assigned to one label (lines 134-139):
`min(candidates)[1]["text"].strip()` if there are candidates, else `""`.
The `TypeError` of a tie propagates. -/
def matchValue (k : Span) (vals : List Span) : Except Unit String :=
  match candidatesOf k vals with
  | [] => Except.ok ""
  | c :: cs => (pyMinGo c cs).map (fun p => pyStrip p.2.text)

/-- The `for key_span in keys` loop (lines 121-139), writing each label's
matched value into the metadata dict; an exception aborts the loop. -/
def assignKeys (vals : List Span) : List Span → List (String × String) →
    Except Unit (List (String × String))
  | [], d => Except.ok d
  | k :: ks, d =>
      match matchValue k vals with
      | Except.error e => Except.error e
      | Except.ok v => assignKeys vals ks (dictSet d (fieldName k.normalized_key) v)

/-- `for field in self.FIELDS: metadata.setdefault(field, "")`. -/
def setdefaultAll (d : List (String × String)) : List (String × String) :=
  FIELDS.foldl (fun d f => dictSetdefault d f "") d

/-- `missing_fields` (line 146): fields whose stripped value is empty. -/
def missingOf (d : List (String × String)) : List String :=
  FIELDS.filter (fun f => pyStrip ((dictGet d f).getD "") == "")

/-- `_parse_certificate` on the extracted spans of the first page.  The
metadata dict is modelled without its `"Sl. No"` integer entry (the
sequence number is carried separately); it starts with the `"Filename"`
entry of line 117. -/
def parseCertificate (fname : String) (spans : List Span) :
    Except Unit (List (String × String) × List String) :=
  match assignKeys (valsOf spans) (keysOf spans) [("Filename", fname)] with
  | Except.error e => Except.error e
  | Except.ok d =>
      let d2 := setdefaultAll d
      Except.ok (d2, missingOf d2)

/-! ### `process` / `_process_single_pdf` (lines 52-100) -/

/-- One Oman input PDF: its filename and what `_extract_spans` yields
(`Except.error` when opening or reading the PDF raises). -/
structure OmanDoc where
  filename : String
  spans : Except Unit (List Span)
deriving Repr

/-- One row of `self.records`: the sequence number (the `"Sl. No"` dict
entry) and the string-valued entries in insertion order. -/
structure OmanRecord where
  slNo : Nat
  fields : List (String × String)
deriving DecidableEq, Repr

/-- The blank record of lines 86-88 and 98-100:
`{"Sl. No": n, "Filename": fn}` then `update({f: "" for f in FIELDS})`.
Because `"Filename"` is itself in `FIELDS`, the update overwrites it. -/
def blankRecord (seq : Nat) (fn : String) : OmanRecord :=
  { slNo := seq
    fields := FIELDS.foldl (fun d f => dictSet d f "") [("Filename", fn)] }

/-- `_process_single_pdf`: parse; on any exception or on a non-empty
missing-field list append a blank record, else append the metadata. -/
def processSinglePdf (seq : Nat) (d : OmanDoc) : OmanRecord :=
  match d.spans with
  | Except.error _ => blankRecord seq d.filename
  | Except.ok sp =>
      match parseCertificate d.filename sp with
      | Except.error _ => blankRecord seq d.filename
      | Except.ok (md, missing) =>
          if missing.isEmpty then { slNo := seq, fields := md }
          else blankRecord seq d.filename

/-- The `for idx, pdf_file in enumerate(pdf_files, 1)` loop of `process`. -/
def processAll : Nat → List OmanDoc → List OmanRecord
  | _, [] => []
  | i, d :: ds => processSinglePdf i d :: processAll (i + 1) ds

/-- `self.records` after a full Oman run over the sorted PDF list. -/
def omanRecords (docs : List OmanDoc) : List OmanRecord :=
  processAll 1 docs

/-- Default values for `List.getD` in theorem statements. -/
def defaultOmanRecord : OmanRecord := { slNo := 0, fields := [] }

def defaultOmanDoc : OmanDoc := { filename := "", spans := Except.error () }

/-! ## Proserv processor (`src/proserv_processor.py`)

Camelot's first extracted table is a rectangular dataframe of string
cells; we model it as its column count and its row list. -/

/-- `self.TOKENS`. -/
def TOKENS : List String := ["S-No", "Equipment Tag", "Pass/Fail"]

/-- `self.EXPECTED_COLS = 18`. -/
def expectedCols : Nat := 18

/-- `self.FIXED_COLS` (18 column names). -/
def FIXED_COLS : List String :=
  ["S-No.", "Equipment Tag #", "Equipment Description", "Manufacturer",
   "Model", "Circuit ID", "Area of Classification", "IP", "Protection Method",
   "Gas Group", "T-Rating", "Serial Number", "Certifying Authority",
   "Certificate No.", "Grade of Inspection", "Inspection Date",
   "Expiry Date", "Pass/Fail"]

/-- A camelot dataframe: `ncols = df.shape[1]` and the cell rows. -/
structure DF where
  ncols : Nat
  rows : List (List String)
deriving DecidableEq, Repr

/-- `has_header_tokens` (lines 205-208): every token appears,
case-insensitively, as a substring of some cell of the row. -/
def hasHeaderTokens (row : List String) : Bool :=
  TOKENS.all (fun tok => row.any (fun cell => containsSub (pyLower cell) (pyLower tok)))

/-- `df.iloc[0].astype(str) + " " + df.iloc[1].astype(str)`:
cell-by-cell space-joined merge of the first two rows. -/
def mergeTwoRows (r0 r1 : List String) : List String :=
  List.zipWith (fun a b => a ++ " " ++ b) r0 r1

/-- Whether the merged-first-two-rows fallback of `_process_headers`
(lines 218-220) fires: it is only tried when the table has more than one
row, and tests the merged row against the same token set. -/
def mergedHeaderTest (df : DF) : Bool :=
  match df.rows with
  | r0 :: r1 :: _ => hasHeaderTokens (mergeTwoRows r0 r1)
  | _ => false

/-- `_process_headers` (lines 203-231).  Column renaming is immaterial to
the later positional logic (the columns are reassigned to `FIXED_COLS`),
so only the row slicing is modelled: drop everything up to and including
a single-row header, or the first two rows for a merged header; with no
header detected the dataframe is returned unchanged. -/
def processHeaders (df : DF) : DF :=
  match df.rows.findIdx? hasHeaderTokens with
  | some i => { df with rows := df.rows.drop (i + 1) }
  | none =>
      if mergedHeaderTest df then { df with rows := df.rows.drop 2 } else df

/-- The digit-only first-column test of line 188
(`df["S-No."].astype(str).str.match(r'^\d+$')`). -/
def digitRow (r : List String) : Bool :=
  isDigits (r.headD "")

/-- The row filter of line 188 applied to a row list. -/
def digitFilterRows (l : List (List String)) : List (List String) :=
  l.filter digitRow

/-- `_extract_table_data` from `tables[0].df` on (lines 177-189): process
headers, reject tables narrower than 18 columns (`None` = document
skipped, error recorded), truncate to the first 18 columns, keep the
digit-first-column rows. -/
def extractTableData (df : DF) : Option (List (List String)) :=
  let df2 := processHeaders df
  if df2.ncols < expectedCols then none
  else some (digitFilterRows (df2.rows.map (fun r => r.take expectedCols)))

/-- One Proserv input PDF: filename, the equipment id found on page 1,
and camelot's first table (`none` when no table was found or the
extraction raised). -/
structure ProservDoc where
  filename : String
  equipmentId : String
  table : Option DF
deriving DecidableEq, Repr

/-- `_process_single_pdf` (lines 90-113): the extracted rows with the
`Filename` and `Equipment ID` columns appended, or `none` when the
document produced no dataframe (an error is recorded exactly then). -/
def processSingleProserv (d : ProservDoc) : Option (List (List String)) :=
  match d.table with
  | none => none
  | some df =>
      (extractTableData df).map (fun rs => rs.map (fun r => r ++ [d.filename, d.equipmentId]))

/-- The final dataset written by `_generate_excel`:
`pd.concat(self.dataframes)` in input order (the column moves of lines
244-245 keep the two metadata columns at the end, where
`processSingleProserv` already placed them). -/
def finalRows (docs : List ProservDoc) : List (List String) :=
  (docs.filterMap processSingleProserv).flatten

/-! ## Spec-side definitions

These follow the wording of the specification, for comparison against the
definitions above; they are not translations of the source. -/

/-- The union (bounding box) of two boxes, as the specification's
"bbox = union of start/end fragment boxes" reads. -/
def boxUnion (a b : Bbox) : Bbox :=
  { x0 := min a.x0 b.x0, y0 := min a.y0 b.y0
    x1 := max a.x1 b.x1, y1 := max a.y1 b.y1 }

/-- Concatenated text of a span list. -/
def textJoin : List Span → String
  | [] => ""
  | s :: ss => s.text ++ textJoin ss

/-- Whether the extension of `acc` by the spans up to index `k` (that is,
by `k + 1` further spans) normalises to a known field label. -/
def hitAt (acc : String) (ts : List Span) (k : Nat) : Bool :=
  inFieldMap (normalizeKey (acc ++ textJoin (ts.take (k + 1))))

/-- The first extension index that hits the field dictionary. -/
def firstHit (acc : String) (ts : List Span) : Option Nat :=
  (List.range ts.length).find? (hitAt acc ts)

/-- Default span for `List.getD` in statements. -/
def defaultSpan : Span := mkSpan "" 0 0 0 0

/-- The merged span the specification describes for a start span `s`,
accumulated text `acc` and a hit at extension index `k` of `ts`: text is
the concatenation, the box takes `x0, y0` from the start fragment and
`x1, y1` from the last consumed fragment, the `y_position` is their mean. -/
def mkMerged (s : Span) (acc : String) (ts : List Span) (k : Nat) : Span :=
  { text := acc ++ textJoin (ts.take (k + 1))
    normalized_key := normalizeKey (acc ++ textJoin (ts.take (k + 1)))
    bbox := { x0 := s.bbox.x0, y0 := s.bbox.y0
              x1 := (ts.getD k defaultSpan).bbox.x1, y1 := (ts.getD k defaultSpan).bbox.y1 }
    ymid4 := Int.fdiv (s.ymid4 + (ts.getD k defaultSpan).ymid4) 2 }

/-- Decidable equality of `Except` results, for evaluating concrete
runs in closed statements. -/
instance {ε α : Type} [DecidableEq ε] [DecidableEq α] : DecidableEq (Except ε α) :=
  fun a b =>
    match a, b with
    | Except.error e1, Except.error e2 =>
        if h : e1 = e2 then Decidable.isTrue (by rw [h])
        else Decidable.isFalse (by intro hc; injection hc; contradiction)
    | Except.error _, Except.ok _ => Decidable.isFalse (by intro hc; injection hc)
    | Except.ok _, Except.error _ => Decidable.isFalse (by intro hc; injection hc)
    | Except.ok v1, Except.ok v2 =>
        if h : v1 = v2 then Decidable.isTrue (by rw [h])
        else Decidable.isFalse (by intro hc; injection hc; contradiction)

/-! ## Concrete inputs used in the theorems -/

/-- A `SYSTEM` label span on the row at y-center 5. -/
def kSYS : Span := mkSpan "SYSTEM" 0 0 30 10

/-- An `AREA` label span on the same row, to the right of `kSYS`. -/
def kAREA : Span := mkSpan "AREA" 40 0 80 10

/-- A value span on the same row, to the right of both labels. -/
def vVAL : Span := mkSpan "VALX" 100 0 140 10

/-- Two labels and a single value span on one row. -/
def ce1spans : List Span := [kSYS, kAREA, vVAL]

/-- A label span with x-range `[0, 50]`. -/
def kC3 : Span := mkSpan "SYSTEM" 0 0 50 10

/-- A same-row value span at `x0 = 60`. -/
def v60 : Span := mkSpan "A" 60 0 90 10

/-- A same-row value span at `x0 = 200`. -/
def v200 : Span := mkSpan "B" 200 0 240 10

/-- A same-row value span at `x0 = 60` (gap 10 from `kC3`). -/
def vT1 : Span := mkSpan "P" 60 0 90 10

/-- A distinct same-row value span also at `x0 = 60` (same gap 10). -/
def vT2 : Span := mkSpan "Q" 60 2 90 12

/-- An Oman document whose only span is the `SYSTEM` label, so that its
parse succeeds but leaves almost every field missing. -/
def ce2doc : OmanDoc :=
  { filename := "a.pdf", spans := Except.ok [mkSpan "SYSTEM" 0 0 30 10] }

/-- `"PROJECT"` / `"DESC"` / `"RIPTION"` fragments on one row. -/
def ceP : Span := mkSpan "PROJECT" 0 0 10 10

def ceD : Span := mkSpan "DESC" 12 0 20 10

def ceR : Span := mkSpan "RIPTION" 22 0 30 10

/-- The merged `PROJECTDESCRIPTION` span the code produces for
`[ceP, ceD, ceR]`. -/
def ceM1 : Span :=
  { text := "PROJECTDESCRIPTION", normalized_key := "PROJECTDESCRIPTION"
    bbox := { x0 := 0, y0 := 0, x1 := 30, y1 := 10 }, ymid4 := 20 }

/-- The merged `DESCRIPTION` span the code produces for `[ceP, ceD, ceR]`
(the start at `"DESC"` also hits the dictionary). -/
def ceM2 : Span :=
  { text := "DESCRIPTION", normalized_key := "DESCRIPTION"
    bbox := { x0 := 12, y0 := 0, x1 := 30, y1 := 10 }, ymid4 := 20 }

/-- A `"PROJECT"` fragment whose box has `y0 = 2`. -/
def ceA : Span := mkSpan "PROJECT" 0 2 10 3

/-- A `"DESCRIPTION"` fragment on the same row whose box has `y0 = 0`. -/
def ceB : Span := mkSpan "DESCRIPTION" 12 0 20 4

/-- The merged span the code produces for `[ceA, ceB]`: its `y0` comes
from the first fragment (2), not from the union of the two boxes (0). -/
def ceM3 : Span :=
  { text := "PROJECTDESCRIPTION", normalized_key := "PROJECTDESCRIPTION"
    bbox := { x0 := 0, y0 := 2, x1 := 20, y1 := 4 }, ymid4 := 9 }

/-- An 18-column table with no header tokens anywhere and one data row
whose first cell is `"1"`. -/
def ce5df : DF :=
  { ncols := 18, rows := [List.replicate 18 "z", "1" :: List.replicate 17 "w"] }

/-- An 18-cell row whose first cell is `s`. -/
def mkRow (s : String) : List String := s :: List.replicate 17 "x"

/-- A table with a proper header row and first-column values
`1, 2, Total, 3`. -/
def ce8df : DF :=
  { ncols := 18, rows := [FIXED_COLS, mkRow "1", mkRow "2", mkRow "Total", mkRow "3"] }

/-- A Proserv document carrying `ce8df`. -/
def ce8doc : ProservDoc := { filename := "f.pdf", equipmentId := "EQ1", table := some ce8df }

/-- A page-1 text containing both Proserv markers and both Oman markers
(lower case; classification uppercases). -/
def tAllMarkers : String :=
  "visual & close inspection report for electrical equipment in hazardous areas"

/-- A PDF whose open raises. -/
def badDoc : CDoc := { filename := "bad.pdf", content := PdfContent.fail, copyOk := true }

/-- A progress callback returning true for the first two calls and false
from the third call on. -/
def cbStopAfter2 : Nat → Bool := fun n => Nat.ble n 2

/-- Three readable Proserv documents for the cancellation run. -/
def cDocs3 : List CDoc :=
  [{ filename := "a.pdf", content := PdfContent.pages [tAllMarkers], copyOk := true },
   { filename := "b.pdf", content := PdfContent.pages [tAllMarkers], copyOk := true },
   { filename := "c.pdf", content := PdfContent.pages [tAllMarkers], copyOk := true }]

/-- Two Oman documents, the first unreadable, the second readable but
empty. -/
def omanDocs2 : List OmanDoc :=
  [{ filename := "b.pdf", spans := Except.error () },
   { filename := "a.pdf", spans := Except.ok [] }]

/-! ## Shared lemmas -/

/-- A run that is never cancelled is a plain left fold of `stepDoc`. -/
theorem runLoop_true_eq_foldl (docs : List CDoc) :
    ∀ (i : Nat) (st : CState),
      runLoop (fun _ => true) i st docs = List.foldl stepDoc st docs := by
  induction docs with
  | nil => intro i st; rfl
  | cons d ds ih =>
      intro i st
      simpa [runLoop] using ih (i + 1) (stepDoc st d)

/-- An unreadable document steps only the `unclassified` counter. -/
theorem stepDoc_unreadable (st : CState) (d : CDoc)
    (h : d.content = PdfContent.fail ∨ d.content = PdfContent.pages []) :
    stepDoc st d =
      { st with unclassified := st.unclassified + 1,
                unknownFiles := st.unknownFiles ++ [d.filename] } := by
  rcases h with h | h <;> simp [stepDoc, classifyCertificate, h]

/-- Folding `stepDoc` over unreadable documents counts them all as
unclassified and leaves the error counter untouched. -/
theorem foldl_stepDoc_unreadable (docs : List CDoc) :
    ∀ st : CState,
      (∀ d ∈ docs, d.content = PdfContent.fail ∨ d.content = PdfContent.pages []) →
      (List.foldl stepDoc st docs).errors = st.errors ∧
        (List.foldl stepDoc st docs).unclassified = st.unclassified + docs.length := by
  induction docs with
  | nil => intro st _; simp
  | cons d ds ih =>
      intro st h
      have hd := stepDoc_unreadable st d (h d (by simp))
      have hrest := ih (stepDoc st d) (fun d2 h2 => h d2 (by simp [h2]))
      rw [List.foldl_cons]
      refine ⟨?_, ?_⟩
      · rw [hrest.1, hd]
      · rw [hrest.2, hd]
        simp
        omega

/-- Before the first false callback answer, `runLoop` folds exactly the
prefix of documents processed so far. -/
theorem runLoop_stop_take (cb : Nat → Bool) (k : Nat)
    (htrue : ∀ j, j < k → cb (j + 1) = true) (hfalse : cb (k + 1) = false) :
    ∀ (docs : List CDoc) (i : Nat) (st : CState), i ≤ k →
      runLoop cb i st docs = List.foldl stepDoc st (docs.take (k - i)) := by
  intro docs
  induction docs with
  | nil => intro i st _; simp [runLoop]
  | cons d ds ih =>
      intro i st hik
      rcases Nat.lt_or_ge i k with hlt | hge
      · have hcb : cb (i + 1) = true := htrue i hlt
        have hki : k - i = (k - (i + 1)) + 1 := by omega
        rw [runLoop, hcb, if_pos rfl, ih (i + 1) (stepDoc st d) hlt, hki,
          List.take_succ_cons, List.foldl_cons]
      · have hik2 : i = k := by omega
        have hcb : cb (i + 1) = false := by rw [hik2]; exact hfalse
        have hki : k - i = 0 := by omega
        rw [runLoop, hcb, if_neg (by simp), hki]
        rfl

/-- `processAll` yields one record per document. -/
theorem processAll_length (docs : List OmanDoc) :
    ∀ i : Nat, (processAll i docs).length = docs.length := by
  induction docs with
  | nil => intro i; rfl
  | cons d ds ih => intro i; simp [processAll, ih (i + 1)]

/-- The `j`-th record of `processAll i docs` is the record of the `j`-th
document with sequence number `i + j`. -/
theorem processAll_getD (docs : List OmanDoc) :
    ∀ (i j : Nat), j < docs.length →
      (processAll i docs).getD j defaultOmanRecord =
        processSinglePdf (i + j) (docs.getD j defaultOmanDoc) := by
  induction docs with
  | nil => intro i j h; simp at h
  | cons d ds ih =>
      intro i j h
      cases j with
      | zero => simp [processAll]
      | succ j2 =>
          have := ih (i + 1) j2 (by simpa using h)
          simpa [processAll, Nat.add_assoc, Nat.add_comm 1 j2] using this

/-- Every branch of `_process_single_pdf` writes the sequence number. -/
theorem processSinglePdf_slNo (seq : Nat) (d : OmanDoc) :
    (processSinglePdf seq d).slNo = seq := by
  rcases hs : d.spans with e | sp
  · simp [processSinglePdf, hs, blankRecord]
  · rcases hp : parseCertificate d.filename sp with e | ⟨md, missing⟩
    · simp [processSinglePdf, hs, hp, blankRecord]
    · by_cases hm : missing.isEmpty
      · simp [processSinglePdf, hs, hp, hm]
      · simp [processSinglePdf, hs, hp, hm, blankRecord]

/-! ## Claims -/

/-- Claim C7: for every page-1 text containing both Proserv marker
substrings after uppercasing, classification returns Proserv — even when
both Oman marker substrings are also present, since the Proserv pair is
checked first; and for every page-1 text containing neither complete
marker pair, classification returns Unclassified (`none`). -/
theorem c7_proserv_priority (t : String) (rest : List String) :
    (containsSub (pyUpper t) KEY_PROSERV_A.data = true →
     containsSub (pyUpper t) KEY_PROSERV_B.data = true →
     classifyCertificate (PdfContent.pages (t :: rest)) = some CClass.proserv) ∧
    ((containsSub (pyUpper t) KEY_PROSERV_A.data &&
        containsSub (pyUpper t) KEY_PROSERV_B.data) = false →
     (containsSub (pyUpper t) KEY_OMAN_A.data &&
        containsSub (pyUpper t) KEY_OMAN_B.data) = false →
     classifyCertificate (PdfContent.pages (t :: rest)) = none) := by
  constructor
  · intro h1 h2
    simp [classifyCertificate, classifyText, h1, h2]
  · intro h1 h2
    simp [classifyCertificate, classifyText, h1, h2]

/-- Witness for C7: a page containing all four markers classifies as
Proserv, and an empty page text classifies as `none`. -/
theorem c7_witness :
    classifyCertificate (PdfContent.pages [tAllMarkers]) = some CClass.proserv ∧
    classifyCertificate (PdfContent.pages [""]) = none :=
  ⟨(c7_proserv_priority tAllMarkers []).1 (by decide) (by decide),
   (c7_proserv_priority "" []).2 (by decide) (by decide)⟩

/-- Counterexample to claim C4: a run over one unreadable PDF ends with
`errors = 0` and `unclassified = 1`, not `errors = 1` and
`unclassified = 0` — `_classify_certificate` swallows the open failure
and returns `None`, which the loop counts as unclassified. -/
theorem c4_counterexample :
    (processCerts [badDoc]).errors = 0 ∧
    (processCerts [badDoc]).unclassified = 1 ∧
    ¬((processCerts [badDoc]).errors = 1 ∧ (processCerts [badDoc]).unclassified = 0) := by
  decide

/-- Claim C4, amended: a PDF that cannot be opened or has no pages is
classified as `None` and counted as unclassified, not as an error; a run
over `n` unreadable PDFs ends with `errors = 0` and `unclassified = n`. -/
theorem c4_unreadable_unclassified (docs : List CDoc)
    (h : ∀ d ∈ docs, d.content = PdfContent.fail ∨ d.content = PdfContent.pages []) :
    (processCerts docs).errors = 0 ∧ (processCerts docs).unclassified = docs.length := by
  have hfold := foldl_stepDoc_unreadable docs initState h
  rw [processCerts, runLoop_true_eq_foldl docs 0 initState]
  simpa [initState] using hfold

/-- Witness for the amended C4 at one concrete unreadable document. -/
theorem c4_witness :
    (processCerts [badDoc]).errors = 0 ∧ (processCerts [badDoc]).unclassified = 1 :=
  c4_unreadable_unclassified [badDoc] (by decide)

/-- Claim C9: when the progress callback answers false, the loop returns
the state as it stood — no further document is classified or copied —
and, when the callback answers true for the first `k` calls and false at
call `k + 1`, the run's final state is exactly the fold over the first
`k` documents: the results of the documents processed before the
cancellation are preserved, not rolled back. -/
theorem c9_cancellation :
    (∀ (cb : Nat → Bool) (i : Nat) (st : CState) (d : CDoc) (ds : List CDoc),
       cb (i + 1) = false → runLoop cb i st (d :: ds) = st) ∧
    (∀ (cb : Nat → Bool) (docs : List CDoc) (k : Nat),
       (∀ j, j < k → cb (j + 1) = true) → cb (k + 1) = false →
       runLoop cb 0 initState docs = List.foldl stepDoc initState (docs.take k)) := by
  constructor
  · intro cb i st d ds h
    rw [runLoop, h]
    simp
  · intro cb docs k htrue hfalse
    simpa using runLoop_stop_take cb k htrue hfalse docs 0 initState (by omega)

/-- Witness for C9: with a callback that stops at the third call, a
three-document run equals the fold over the first two documents. -/
theorem c9_witness :
    runLoop cbStopAfter2 0 initState cDocs3 =
      List.foldl stepDoc initState (cDocs3.take 2) :=
  c9_cancellation.2 cbStopAfter2 cDocs3 2
    (fun j hj => by
      have : j + 1 ≤ 2 := by omega
      simpa [cbStopAfter2, Nat.ble_eq] using this)
    (by decide)

/-- Claim C2 (code bug): a document whose parse leaves fields missing is
written as the blank record, but the blank record blanks the `Filename`
entry too — `"Filename"` is an element of `FIELDS`, so
`update({f: "" for f in FIELDS})` overwrites it — while the claim (and
the evident intent of a "blank record for manual fixing") keeps the
filename populated.  Only the sequence number survives. -/
theorem c2_filename_blanked :
    processSinglePdf 3 ce2doc = blankRecord 3 "a.pdf" ∧
    (blankRecord 3 "a.pdf").slNo = 3 ∧
    dictGet (blankRecord 3 "a.pdf").fields "Filename" = some "" ∧
    FIELDS.all (fun f => dictGet (blankRecord 3 "a.pdf").fields f == some "") = true := by
  refine ⟨by decide, by decide, by decide, by decide⟩

/-- Claim C10: a full Oman run appends exactly one record per input PDF
— an unreadable or unparsable document contributes a blank record in its
place — the records follow the input (sorted-filename) order, and the
`j`-th record's sequence number is `j + 1` (1-based position). -/
theorem c10_one_record_per_pdf (docs : List OmanDoc) :
    (omanRecords docs).length = docs.length ∧
    (∀ (seq : Nat) (d : OmanDoc), d.spans = Except.error () →
       processSinglePdf seq d = blankRecord seq d.filename) ∧
    (∀ j, j < docs.length →
       (omanRecords docs).getD j defaultOmanRecord =
         processSinglePdf (j + 1) (docs.getD j defaultOmanDoc) ∧
       ((omanRecords docs).getD j defaultOmanRecord).slNo = j + 1) := by
  refine ⟨processAll_length docs 1, ?_, ?_⟩
  · intro seq d h
    rw [processSinglePdf, h]
  · intro j hj
    have hg := processAll_getD docs 1 j hj
    have hs : (1 : Nat) + j = j + 1 := Nat.add_comm 1 j
    rw [hs] at hg
    exact ⟨hg, by rw [omanRecords, hg, processSinglePdf_slNo]⟩

/-- Witness for C10 on two concrete documents (one of them failing):
two records, and the second record carries sequence number 2. -/
theorem c10_witness :
    (omanRecords omanDocs2).length = 2 ∧
    ((omanRecords omanDocs2).getD 1 defaultOmanRecord).slNo = 2 :=
  ⟨(c10_one_record_per_pdf omanDocs2).1,
   ((c10_one_record_per_pdf omanDocs2).2.2 1 (by decide)).2⟩

/-- Rows surviving the digit filter are non-empty, so appending the two
metadata columns does not change their first cell. -/
theorem digitRow_append (r : List String) (l : List String)
    (h : digitRow r = true) : digitRow (r ++ l) = true := by
  cases r with
  | nil => simp [digitRow, isDigits] at h
  | cons a t => simpa [digitRow] using h

/-- Every row of an extracted table passes the digit-first-column test:
`_extract_table_data` filters before returning. -/
theorem extractTableData_digit (df : DF) (rs : List (List String))
    (h : extractTableData df = some rs) : ∀ r ∈ rs, digitRow r = true := by
  intro r hr
  rw [extractTableData] at h
  by_cases hc : (processHeaders df).ncols < expectedCols
  · simp [hc] at h
  · rw [if_neg hc] at h
    have hrs := Option.some.inj h
    rw [← hrs] at hr
    exact (List.mem_filter.mp hr).2

/-- Every row a document contributes to the final dataset passes the
digit-first-column test. -/
theorem finalRows_digit (docs : List ProservDoc) :
    ∀ r ∈ finalRows docs, digitRow r = true := by
  intro r hr
  rw [finalRows] at hr
  obtain ⟨l, hl, hrl⟩ := List.mem_flatten.mp hr
  obtain ⟨d, _, hd⟩ := List.mem_filterMap.mp hl
  rw [processSingleProserv] at hd
  rcases ht : d.table with _ | df
  · rw [ht] at hd; exact absurd hd (by simp)
  · rw [ht] at hd
    dsimp only at hd
    rcases he : extractTableData df with _ | rs
    · rw [he] at hd; exact absurd hd (by simp)
    · rw [he] at hd
      have hmap := Option.some.inj hd
      rw [← hmap] at hrl
      obtain ⟨x, hx, hxr⟩ := List.mem_map.mp hrl
      rw [← hxr]
      exact digitRow_append x _ (extractTableData_digit df rs he x hx)

/-- Claim C8: the final Proserv dataset is the concatenation of the
per-document extracted row sequences in input order, and applying the
digit-only first-column filter once globally after concatenation is a
no-op (each per-document sequence is already filtered), so the global
and per-document placements of the filter agree; in particular a table
with first-column values `1, 2, Total, 3` contributes exactly the rows
`1, 2, 3`. -/
theorem c8_filter_refinement :
    (∀ docs : List ProservDoc, digitFilterRows (finalRows docs) = finalRows docs) ∧
    (∀ a b : List (List String),
       digitFilterRows (a ++ b) = digitFilterRows a ++ digitFilterRows b) ∧
    (processSingleProserv ce8doc).map (List.map (fun r => r.headD "")) =
      some ["1", "2", "3"] := by
  refine ⟨?_, ?_, by decide⟩
  · intro docs
    exact List.filter_eq_self.mpr (finalRows_digit docs)
  · intro a b
    exact List.filter_append a b

/-- Counterexample to claim C5: an 18-column table in which no row (and
no merge of rows 0 and 1) contains the header tokens is NOT skipped:
header processing silently returns it unchanged, the column-count guard
passes, and its digit-first-column row is emitted — the document is not
counted as an error (an error is recorded exactly when the extraction
returns `None`). -/
theorem c5_counterexample :
    ce5df.rows.all (fun r => !hasHeaderTokens r) = true ∧
    mergedHeaderTest ce5df = false ∧
    extractTableData ce5df = some ["1" :: List.replicate 17 "w"] ∧
    processSingleProserv
      { filename := "f.pdf", equipmentId := "EQ", table := some ce5df } ≠ none := by
  refine ⟨by decide, by decide, by decide, by decide⟩

/-- Claim C5, amended: when no single-row header is found and the merged
rows 0+1 also fail the token test, `_process_headers` returns the table
unchanged; the document is then skipped (extraction yields `None`, which
is what gets counted as an error) only if the unsliced table has fewer
than 18 columns — a headerless table with at least 18 columns still
contributes its digit-first-column rows. -/
theorem c5_headerless_passthrough (df : DF)
    (h1 : df.rows.findIdx? hasHeaderTokens = none)
    (h2 : mergedHeaderTest df = false) :
    processHeaders df = df ∧
    extractTableData df =
      (if df.ncols < expectedCols then none
       else some (digitFilterRows (df.rows.map (fun r => r.take expectedCols)))) := by
  have hph : processHeaders df = df := by
    rw [processHeaders, h1, h2]
    simp
  exact ⟨hph, by rw [extractTableData, hph]⟩

/-- Witness for the amended C5 at the concrete headerless table. -/
theorem c5_witness :
    processHeaders ce5df = ce5df ∧
    extractTableData ce5df =
      (if ce5df.ncols < expectedCols then none
       else some (digitFilterRows (ce5df.rows.map (fun r => r.take expectedCols)))) :=
  c5_headerless_passthrough ce5df (by decide) (by decide)

/-- The first extension hit test: one further span. -/
theorem hitAt_zero (acc : String) (t : Span) (ts2 : List Span) :
    hitAt acc (t :: ts2) 0 = inFieldMap (normalizeKey (acc ++ t.text)) := by
  simp [hitAt, textJoin, String.append_empty]

/-- Shifting the hit test past the first extension folds that span's text
into the accumulator. -/
theorem hitAt_succ (acc : String) (t : Span) (ts2 : List Span) (k : Nat) :
    hitAt acc (t :: ts2) (k + 1) = hitAt (acc ++ t.text) ts2 k := by
  simp [hitAt, textJoin, List.take_succ_cons, String.append_assoc]

/-- The merged span for a hit on the very first extension. -/
theorem mkMerged_zero (s : Span) (acc : String) (t : Span) (ts2 : List Span) :
    mkMerged s acc (t :: ts2) 0 =
      { text := acc ++ t.text
        normalized_key := normalizeKey (acc ++ t.text)
        bbox := { x0 := s.bbox.x0, y0 := s.bbox.y0, x1 := t.bbox.x1, y1 := t.bbox.y1 }
        ymid4 := Int.fdiv (s.ymid4 + t.ymid4) 2 } := by
  simp [mkMerged, textJoin, String.append_empty]

/-- Shifting the merged-span construction past the first extension. -/
theorem mkMerged_succ (s : Span) (acc : String) (t : Span) (ts2 : List Span) (k : Nat) :
    mkMerged s acc (t :: ts2) (k + 1) = mkMerged s (acc ++ t.text) ts2 k := by
  simp [mkMerged, textJoin, List.take_succ_cons, String.append_assoc]

/-- The inner merge loop returns exactly the merged span of the FIRST
extension index whose accumulated text normalises into the field
dictionary, and nothing when no extension in the offered window hits. -/
theorem mergeScan_eq_firstHit (ts : List Span) :
    ∀ (s : Span) (acc : String),
      mergeScan s acc ts = (firstHit acc ts).map (mkMerged s acc ts) := by
  induction ts with
  | nil => intro s acc; rfl
  | cons t ts2 ih =>
      intro s acc
      rw [firstHit, List.length_cons, List.range_succ_eq_map]
      cases h0 : inFieldMap (normalizeKey (acc ++ t.text)) with
      | true =>
          rw [List.find?_cons_of_pos _ (by simp [hitAt_zero, h0])]
          simp [mergeScan, h0, mkMerged_zero]
      | false =>
          rw [List.find?_cons_of_neg _ (by simp [hitAt_zero, h0])]
          rw [List.find?_map]
          have hfun : (hitAt acc (t :: ts2)) ∘ Nat.succ = hitAt (acc ++ t.text) ts2 :=
            funext (hitAt_succ acc t ts2)
          have hfun2 : (mkMerged s acc (t :: ts2)) ∘ Nat.succ = mkMerged s (acc ++ t.text) ts2 :=
            funext (mkMerged_succ s acc t ts2)
          rw [hfun, Option.map_map, hfun2]
          simp only [mergeScan, h0, Bool.false_eq_true, if_false]
          rw [ih s (acc ++ t.text), firstHit]

/-- Claim C6, amended: span reconstruction keeps every original span and
appends the synthetic spans; a start at index `i` offers exactly the `4`
following spans of the sorted row; the scan emits the merged span of the
first extension whose normalised concatenation is a known field label
(or nothing), where the merged bbox takes its `x0, y0` from the FIRST
consumed fragment and its `x1, y1` from the LAST consumed fragment (the
specification's "union of the two boxes" only matches when the first
fragment's top edge is the higher one); on the concrete row
`PROJECT / DESC / RIPTION` this produces the `PROJECTDESCRIPTION` span
running from the first fragment's left edge to the last fragment's right
edge. -/
theorem c6_reconstruction :
    (∀ spans : List Span, extendSpansWithMerged spans = spans ++ mergedOf spans) ∧
    (∀ (row : List Span) (i : Nat),
       mergeAt row i =
         (match row.drop i with
          | [] => none
          | s :: rest => mergeScan s s.text (rest.take 4))) ∧
    (∀ (ts : List Span) (s : Span) (acc : String),
       mergeScan s acc ts = (firstHit acc ts).map (mkMerged s acc ts)) ∧
    (extendSpansWithMerged [ceP, ceD, ceR] = [ceP, ceD, ceR, ceM1, ceM2] ∧
     ceM1.normalized_key = "PROJECTDESCRIPTION" ∧
     ceM1.bbox = { x0 := ceP.bbox.x0, y0 := ceP.bbox.y0
                   x1 := ceR.bbox.x1, y1 := ceR.bbox.y1 }) := by
  refine ⟨fun _ => rfl, fun _ _ => rfl, ?_, by decide, by decide, by decide⟩
  intro ts s acc
  exact mergeScan_eq_firstHit ts s acc

/-- Counterexample to claim C6: on a row whose second fragment's box
sticks out above the first one's, the merged span's bbox is NOT the
union of the first and last fragments' boxes — the code takes `y0` from
the first fragment (2), while the union's `y0` is 0. -/
theorem c6_counterexample :
    extendSpansWithMerged [ceA, ceB] = [ceA, ceB, ceM3] ∧
    ceM3.bbox ≠ boxUnion ceA.bbox ceB.bbox := by
  refine ⟨by decide, by decide⟩

/-- Python's `min` scan succeeds and returns an element of smallest
distance provided no two distinct spans of the scanned list (including
the running best) share a distance. -/
theorem pyMinGo_min (cs : List (ℤ × Span)) :
    ∀ best : ℤ × Span,
      (∀ a b : ℤ × Span, (a = best ∨ a ∈ cs) → (b = best ∨ b ∈ cs) →
         a.1 = b.1 → a.2 = b.2) →
      ∃ p : ℤ × Span, (p = best ∨ p ∈ cs) ∧ pyMinGo best cs = Except.ok p ∧
        p.1 ≤ best.1 ∧ ∀ q ∈ cs, p.1 ≤ q.1 := by
  induction cs with
  | nil =>
      intro best _
      exact ⟨best, Or.inl rfl, rfl, le_refl _, by simp⟩
  | cons c cs2 ih =>
      intro best hno
      by_cases hlt : c.1 < best.1
      · obtain ⟨p, hpmem, hpeq, hple, hpall⟩ := ih c
          (fun a b ha hb hab => hno a b
            (ha.elim (fun h => Or.inr (h ▸ List.mem_cons_self c cs2))
              (fun h => Or.inr (List.mem_cons_of_mem c h)))
            (hb.elim (fun h => Or.inr (h ▸ List.mem_cons_self c cs2))
              (fun h => Or.inr (List.mem_cons_of_mem c h))) hab)
        refine ⟨p, ?_, ?_, le_trans hple (le_of_lt hlt), ?_⟩
        · exact Or.inr (hpmem.elim (fun h => h ▸ List.mem_cons_self c cs2)
            (fun h => List.mem_cons_of_mem c h))
        · simp only [pyMinGo, if_pos hlt]
          exact hpeq
        · intro q hq
          rcases List.mem_cons.mp hq with hq0 | hq2
          · exact hq0 ▸ hple
          · exact hpall q hq2
      · have hrest : ∀ a b : ℤ × Span, (a = best ∨ a ∈ cs2) → (b = best ∨ b ∈ cs2) →
            a.1 = b.1 → a.2 = b.2 :=
          fun a b ha hb hab => hno a b (ha.imp_right (List.mem_cons_of_mem c))
            (hb.imp_right (List.mem_cons_of_mem c)) hab
        obtain ⟨p, hpmem, hpeq, hple, hpall⟩ := ih best hrest
        by_cases heq : c.1 = best.1
        · have hspan : c.2 = best.2 :=
            hno c best (Or.inr (List.mem_cons_self c cs2)) (Or.inl rfl) heq
          refine ⟨p, hpmem.imp_right (List.mem_cons_of_mem c), ?_, hple, ?_⟩
          · simp only [pyMinGo, if_neg hlt, if_pos heq, if_pos hspan]
            exact hpeq
          · intro q hq
            rcases List.mem_cons.mp hq with hq0 | hq2
            · rw [hq0, heq]
              exact hple
            · exact hpall q hq2
        · refine ⟨p, hpmem.imp_right (List.mem_cons_of_mem c), ?_, hple, ?_⟩
          · simp only [pyMinGo, if_neg hlt, if_neg heq]
            exact hpeq
          · intro q hq
            rcases List.mem_cons.mp hq with hq0 | hq2
            · rw [hq0]
              exact le_trans hple (le_of_not_lt hlt)
            · exact hpall q hq2

/-- Claim C3, amended: among the qualifying candidates (vertical center
within tolerance, left edge strictly right of the label), the matcher
returns the stripped text of a candidate with the smallest horizontal
gap `x0 − label.x2`, provided no two distinct candidate spans tie on a
gap (Python's `min` raises a `TypeError` on such a tie rather than
keeping the first; see the counterexample); in particular, for a label
at x-range `[0, 50]` and same-row values at `x0 = 60` and `x0 = 200`,
the `x0 = 60` span is selected. -/
theorem c3_nearest_selection :
    (∀ (k : Span) (vals : List Span),
       candidatesOf k vals ≠ [] →
       (∀ a ∈ candidatesOf k vals, ∀ b ∈ candidatesOf k vals,
          a.1 = b.1 → a.2 = b.2) →
       ∃ p ∈ candidatesOf k vals,
         matchValue k vals = Except.ok (pyStrip p.2.text) ∧
         ∀ q ∈ candidatesOf k vals, p.1 ≤ q.1) ∧
    matchValue kC3 [v60, v200] = Except.ok "A" := by
  refine ⟨?_, by decide⟩
  intro k vals hne hno
  rcases hc : candidatesOf k vals with _ | ⟨c, cs⟩
  · exact absurd hc hne
  · have hno2 : ∀ a b : ℤ × Span, (a = c ∨ a ∈ cs) → (b = c ∨ b ∈ cs) →
        a.1 = b.1 → a.2 = b.2 := by
      intro a b ha hb hab
      refine hno a ?_ b ?_ hab <;> rw [hc]
      · exact List.mem_cons.mpr ha
      · exact List.mem_cons.mpr hb
    obtain ⟨p, hpmem, hpeq, hple, hpall⟩ := pyMinGo_min cs c hno2
    refine ⟨p, List.mem_cons.mpr hpmem, ?_, ?_⟩
    · simp only [matchValue, hc, hpeq, Except.map]
    · intro q hq
      rcases List.mem_cons.mp hq with hq0 | hq2
      · exact hq0 ▸ hple
      · exact hpall q hq2

/-- Witness for the amended C3 at the claim's own concrete input. -/
theorem c3_witness :
    ∃ p ∈ candidatesOf kC3 [v60, v200],
      matchValue kC3 [v60, v200] = Except.ok (pyStrip p.2.text) ∧
      ∀ q ∈ candidatesOf kC3 [v60, v200], p.1 ≤ q.1 :=
  c3_nearest_selection.1 kC3 [v60, v200] (by decide) (by decide)

/-- Counterexample to claim C3's tie-break: two DISTINCT candidate spans
with the same smallest gap make `min(candidates)` compare the span dicts
and raise a `TypeError` — the first-encountered candidate is NOT
returned; the parse aborts instead. -/
theorem c3_counterexample :
    matchValue kC3 [vT1, vT2] = Except.error () ∧
    matchValue kC3 [vT1, vT2] ≠ Except.ok (pyStrip vT1.text) := by
  refine ⟨by decide, by decide⟩

/-- Updating a key makes it readable. -/
theorem dictGet_dictSet_self (d : List (String × String)) :
    ∀ k v : String, dictGet (dictSet d k v) k = some v := by
  induction d with
  | nil => intro k v; simp [dictSet, dictGet]
  | cons p rest ih =>
      intro k v
      obtain ⟨k0, v0⟩ := p
      by_cases h : k0 = k
      · simp [dictSet, dictGet, h]
      · simp [dictSet, dictGet, h, ih]

/-- Updating one key leaves every other key's value unchanged. -/
theorem dictGet_dictSet_ne (d : List (String × String)) :
    ∀ k k2 v : String, k ≠ k2 →
      dictGet (dictSet d k v) k2 = dictGet d k2 := by
  induction d with
  | nil => intro k k2 v h; simp [dictSet, dictGet, h]
  | cons p rest ih =>
      intro k k2 v h
      obtain ⟨k0, v0⟩ := p
      by_cases h0 : k0 = k
      · subst h0
        simp [dictSet, dictGet, h]
      · by_cases h02 : k0 = k2
        · subst h02
          simp [dictSet, dictGet, h0]
        · simp [dictSet, dictGet, h0, h02, ih k k2 v h]

/-- `setdefault` never changes the value of a key that is present. -/
theorem dictGet_setdefault_some (d : List (String × String)) :
    ∀ g w k v : String, dictGet d k = some v →
      dictGet (dictSetdefault d g w) k = some v := by
  induction d with
  | nil => intro g w k v h; simp [dictGet] at h
  | cons p rest ih =>
      intro g w k v h
      obtain ⟨k0, v0⟩ := p
      by_cases hg : k0 = g
      · subst hg
        simpa [dictSetdefault] using h
      · by_cases hk : k0 = k
        · subst hk
          rw [dictGet, if_pos rfl] at h
          simp [dictSetdefault, hg, dictGet, h]
        · rw [dictGet, if_neg hk] at h
          simp [dictSetdefault, hg, dictGet, hk, ih g w k v h]

/-- The whole `setdefault` pass preserves present entries. -/
theorem dictGet_setdefaultAll_some (d : List (String × String)) (k v : String)
    (h : dictGet d k = some v) : dictGet (setdefaultAll d) k = some v := by
  rw [setdefaultAll]
  have hgen : ∀ (gs : List String) (d2 : List (String × String)),
      dictGet d2 k = some v →
      dictGet (gs.foldl (fun d f => dictSetdefault d f "") d2) k = some v := by
    intro gs
    induction gs with
    | nil => intro d2 h2; exact h2
    | cons g gs2 ih =>
        intro d2 h2
        exact ih (dictSetdefault d2 g "") (dictGet_setdefault_some d2 g "" k v h2)
  exact hgen FIELDS d h

/-- If the key-assignment loop finishes, every label's match succeeded. -/
theorem assignKeys_ok_of_mem (ks : List Span) :
    ∀ (vals : List Span) (d md : List (String × String)) (k : Span),
      assignKeys vals ks d = Except.ok md → k ∈ ks →
      ∃ v, matchValue k vals = Except.ok v := by
  induction ks with
  | nil => intro vals d md k _ hk; simp at hk
  | cons k0 ks2 ih =>
      intro vals d md k h hk
      rcases hm : matchValue k0 vals with e | v0
      · simp only [assignKeys, hm] at h
        exact Except.noConfusion h
      · simp only [assignKeys, hm] at h
        rcases List.mem_cons.mp hk with hk0 | hk2
        · exact ⟨v0, hk0 ▸ hm⟩
        · exact ih vals _ md k h hk2

/-- Labels that never write a field leave its dict entry unchanged. -/
theorem assignKeys_preserve (ks : List Span) :
    ∀ (vals : List Span) (d md : List (String × String)) (f : String),
      assignKeys vals ks d = Except.ok md →
      (∀ k2 ∈ ks, fieldName k2.normalized_key ≠ f) →
      dictGet md f = dictGet d f := by
  induction ks with
  | nil =>
      intro vals d md f h _
      simp only [assignKeys] at h
      rw [← Except.ok.inj h]
  | cons k0 ks2 ih =>
      intro vals d md f h hne
      rcases hm : matchValue k0 vals with e | v0
      · simp only [assignKeys, hm] at h
        exact Except.noConfusion h
      · simp only [assignKeys, hm] at h
        rw [ih vals _ md f h (fun k2 hk2 => hne k2 (List.mem_cons_of_mem k0 hk2)),
          dictGet_dictSet_ne d _ f v0 (hne k0 (List.mem_cons_self k0 ks2))]

/-- After the assignment loop, a field written only by labels whose
match yields `v` holds `v`. -/
theorem assignKeys_last_value (ks : List Span) :
    ∀ (vals : List Span) (d md : List (String × String)) (f v : String),
      assignKeys vals ks d = Except.ok md →
      (∃ k0 ∈ ks, fieldName k0.normalized_key = f) →
      (∀ k2 ∈ ks, fieldName k2.normalized_key = f → matchValue k2 vals = Except.ok v) →
      dictGet md f = some v := by
  induction ks with
  | nil => intro vals d md f v _ hex _; simp at hex
  | cons k0 ks2 ih =>
      intro vals d md f v h hex hv
      rcases hm : matchValue k0 vals with e | v0
      · simp only [assignKeys, hm] at h
        exact Except.noConfusion h
      · simp only [assignKeys, hm] at h
        by_cases hex2 : ∃ k ∈ ks2, fieldName k.normalized_key = f
        · exact ih vals _ md f v h hex2
            (fun k2 hk2 => hv k2 (List.mem_cons_of_mem k0 hk2))
        · obtain ⟨kw, hkw, hkwf⟩ := hex
          rcases List.mem_cons.mp hkw with hkw0 | hkw2
          · have hf0 : fieldName k0.normalized_key = f := hkw0 ▸ hkwf
            have hv0 : v0 = v := by
              have hh := hv k0 (List.mem_cons_self k0 ks2) hf0
              rw [hm] at hh
              exact Except.ok.inj hh
            have hpres := assignKeys_preserve ks2 vals _ md f h
              (fun k2 hk2 hf2 => hex2 ⟨k2, hk2, hf2⟩)
            rw [hpres, hf0, dictGet_dictSet_self d f v0, hv0]
          · exact absurd ⟨kw, hkw2, hkwf⟩ hex2

/-- Claim C1, amended: the chosen value span is NOT removed from the
candidate pool.  Every label is matched against the full value-span list
`valsOf spans`, independently of the labels processed before it, so a
label whose field is written only by itself always carries
`matchValue k (valsOf spans)` — in particular two labels whose nearest
value span coincides both receive that same span's text, and the second
label does not receive the next-nearest distinct span. -/
theorem c1_no_consumption (spans : List Span) (fname : String) (k : Span)
    (hk : k ∈ keysOf spans)
    (huniq : ∀ k2 ∈ keysOf spans,
       fieldName k2.normalized_key = fieldName k.normalized_key → k2 = k)
    (md : List (String × String)) (missing : List String)
    (hparse : parseCertificate fname spans = Except.ok (md, missing)) :
    ∃ v, matchValue k (valsOf spans) = Except.ok v ∧
      dictGet md (fieldName k.normalized_key) = some v := by
  rcases ha : assignKeys (valsOf spans) (keysOf spans) [("Filename", fname)] with e | d0
  · have hps : parseCertificate fname spans = Except.error e := by
      rw [parseCertificate, ha]
    rw [hps] at hparse
    exact Except.noConfusion hparse
  · have hps : parseCertificate fname spans =
        Except.ok (setdefaultAll d0, missingOf (setdefaultAll d0)) := by
      rw [parseCertificate, ha]
    rw [hps] at hparse
    injection hparse with hpair
    injection hpair with hmd hmiss
    subst hmd
    obtain ⟨v, hv⟩ := assignKeys_ok_of_mem (keysOf spans) (valsOf spans) _ d0 k ha hk
    refine ⟨v, hv, ?_⟩
    have hd0 : dictGet d0 (fieldName k.normalized_key) = some v :=
      assignKeys_last_value (keysOf spans) (valsOf spans) _ d0
        (fieldName k.normalized_key) v ha ⟨k, hk, rfl⟩
        (fun k2 hk2 hf2 => by rw [huniq k2 hk2 hf2]; exact hv)
    exact dictGet_setdefaultAll_some d0 _ v hd0

set_option maxHeartbeats 2000000 in
/-- Witness for the amended C1 at the concrete two-label input. -/
theorem c1_witness :
    kSYS ∈ keysOf ce1spans ∧
    (∃ v, matchValue kSYS (valsOf ce1spans) = Except.ok v ∧
       dictGet (((parseCertificate "c.pdf" ce1spans).toOption.getD ([], [])).1)
         (fieldName kSYS.normalized_key) = some v) :=
  ⟨by decide,
   c1_no_consumption ce1spans "c.pdf" kSYS (by decide) (by decide)
     ((parseCertificate "c.pdf" ce1spans).toOption.getD ([], [])).1
     ((parseCertificate "c.pdf" ce1spans).toOption.getD ([], [])).2
     (by decide)⟩

/-- Counterexample to claim C1: with two labels and a single value span
on one row, BOTH labels receive that value span's text — the span is not
consumed after the first label, and the second label does not fall back
to a next-nearest distinct span (there is none; consumption would give
it the empty string). -/
theorem c1_counterexample :
    valsOf ce1spans = [vVAL] ∧
    (parseCertificate "c.pdf" ce1spans).map
        (fun pr => (dictGet pr.1 "SYSTEM", dictGet pr.1 "AREA")) =
      Except.ok (some "VALX", some "VALX") := by
  refine ⟨by decide, by decide⟩

end Cert
